import Mathlib

/-!
Verification of the storage core of `zllovesuki/b`: TTL wire format
(`app/ttl.go`), the redis backend (`backend/redis.go`), the sqlite backend
(`backend/sqlite.go`), the filesystem fast backend (`fast/file.go`, streaming
revision), the S3 fast backend (`fast/s3.go`) and the AES-GCM encryption
decorator (`encryption/aes_gcm_backend.go`).

Times and durations are modelled as natural numbers of nanoseconds; payloads
and wire artifacts are lists of naturals (bytes, values below 256 where byte
identity matters).  Each backend is modelled as a pure step function from an
explicit store (an association list keyed by identifier) to a result,
translated clause by clause from the Go source.  Primitives living outside the
repository (Go stdlib `time.MarshalBinary`, AES-GCM, the redis server, gorm,
the OS file system, S3) are modelled from their documented semantics and
marked as such in their doc comments.
-/

/-- Errors of the `app` package error vocabulary (`app/backend.go`):
`ErrConflict`, `ErrNotFound`, `ErrExpired`, and opaque wrapped medium or
decode errors. -/
inductive Err where
  | conflict
  | notFound
  | expired
  | other (msg : String)
deriving DecidableEq, Repr

/-! ## Little-endian and big-endian integer encodings -/

/-- Eight-byte little-endian encoding, as written by
`binary.LittleEndian.PutUint64`. -/
def le64 (v : Nat) : List Nat :=
  [v % 256, v / 256 % 256, v / 256 ^ 2 % 256, v / 256 ^ 3 % 256,
   v / 256 ^ 4 % 256, v / 256 ^ 5 % 256, v / 256 ^ 6 % 256, v / 256 ^ 7 % 256]

/-- Little-endian read: first byte is least significant, as done by
`binary.LittleEndian.Uint64`. -/
def readLE (l : List Nat) : Nat :=
  l.foldr (fun b acc => b + 256 * acc) 0

theorem le64_length (v : Nat) : (le64 v).length = 8 := rfl

theorem readLE_le64 (v : Nat) (h : v < 2 ^ 64) : readLE (le64 v) = v := by
  simp only [le64, readLE, List.foldr]
  omega

/-- Big-endian encoding on 8 bytes (Go stdlib time serialization helper). -/
def be64 (v : Nat) : List Nat :=
  [v / 256 ^ 7 % 256, v / 256 ^ 6 % 256, v / 256 ^ 5 % 256, v / 256 ^ 4 % 256,
   v / 256 ^ 3 % 256, v / 256 ^ 2 % 256, v / 256 % 256, v % 256]

/-- Big-endian encoding on 4 bytes. -/
def be32 (v : Nat) : List Nat :=
  [v / 256 ^ 3 % 256, v / 256 ^ 2 % 256, v / 256 % 256, v % 256]

/-- Big-endian read: first byte is most significant. -/
def readBE (l : List Nat) : Nat :=
  l.foldl (fun acc b => acc * 256 + b) 0

theorem readBE_be64 (v : Nat) (h : v < 2 ^ 64) : readBE (be64 v) = v := by
  simp only [be64, readBE, List.foldl]
  omega

theorem readBE_be32 (v : Nat) (h : v < 2 ^ 32) : readBE (be32 v) = v := by
  simp only [be32, readBE, List.foldl]
  omega

/-! ## Go time binary serialization

Modelled from the spec: the 15-byte serialized absolute UTC creation
timestamp is produced by Go stdlib `time.Time.MarshalBinary` (version byte 1,
8-byte big-endian seconds, 4-byte big-endian nanoseconds, 2-byte zone offset,
with the UTC sentinel offset `0xFFFF`); the stdlib source is outside this
repository.  A timestamp is a natural number of nanoseconds. -/

/-- Modelled from the spec: `time.Time.MarshalBinary` for a UTC instant given
as nanoseconds. -/
def marshalTime (t : Nat) : List Nat :=
  1 :: be64 (t / 1000000000) ++ be32 (t % 1000000000) ++ [255, 255]

/-- Modelled from the spec: `time.Time.UnmarshalBinary`; fails on an unknown
version byte or a buffer of the wrong length. -/
def unmarshalTime (l : List Nat) : Option Nat :=
  if l.getD 0 0 = 1 ∧ l.length = 15 then
    some (readBE ((l.drop 1).take 8) * 1000000000 + readBE ((l.drop 9).take 4))
  else none

theorem marshalTime_length (t : Nat) : (marshalTime t).length = 15 := rfl

theorem unmarshalTime_marshalTime (t : Nat) (h : t / 1000000000 < 2 ^ 64) :
    unmarshalTime (marshalTime t) = some t := by
  have h32 : t % 1000000000 < 2 ^ 32 := by omega
  simp only [marshalTime, unmarshalTime, be64, be32]
  norm_num [readBE]
  omega

/-! ## TTL wire format (`app/ttl.go`, 32-byte header revision)

Header constants from the source: `headerSize = 32`, `versionByte = 0`,
`createdStart = 1`, `createdEnd = 16`, `ttlStart = 16`, `ttlEnd = 24`. -/

def headerSize : Nat := 32

/-- The 32-byte header assembled by `WriteTTL`: a zeroed buffer whose byte 0
is the version byte 0, bytes 1 to 15 the marshalled creation time, bytes 16
to 23 the TTL as little-endian uint64, bytes 24 to 31 left zero. -/
def writeTTLHead (now ttl : Nat) : List Nat :=
  0 :: marshalTime now ++ le64 ttl ++ List.replicate 8 0

theorem writeTTLHead_length (now ttl : Nat) : (writeTTLHead now ttl).length = 32 := by
  simp [writeTTLHead, marshalTime, le64, be64, be32]

/-- Semantics of a single `os.File.Read` into an `n`-byte buffer at offset 0:
an error (io.EOF) only when the file is empty, otherwise the first
`min n len` bytes with the rest of the buffer left zeroed. -/
def readBuf (content : List Nat) (n : Nat) : Option (List Nat) :=
  if content.isEmpty then none
  else some (content.take n ++ List.replicate (n - content.length) 0)

/-- `TTLExceeded` from `app/ttl.go` (32-byte header revision).  Faithful to
the source: the version switch inspects `head[versionByte]` of the freshly
allocated all-zero buffer before `r.Read(head)` fills it, so the branch for
version 0 is always taken and the default unrecognized-version branch is
unreachable.  The TTL field is read as a nonnegative int64 (headers written
by `WriteTTL` carry a Go `time.Duration` below `2 ^ 63`). -/
def TTLExceeded (now : Nat) (content : List Nat) : Except Err Bool :=
  let preHead : List Nat := List.replicate headerSize 0
  match preHead.getD 0 0 with
  | 0 =>
      match readBuf content headerSize with
      | none => .error (.other "cannot read expiration data")
      | some head =>
          let ttl := readLE ((head.drop 16).take 8)
          if ttl = 0 then .ok false
          else
            match unmarshalTime ((head.drop 1).take 15) with
            | none => .error (.other "error unmarshalling binary into time")
            | some ref => .ok (decide (now > ref + ttl))
  | _ => .error (.other "uncognized header version")

/-- The dead version switch of `TTLExceeded` reduces away: the freshly
allocated buffer is all zero, so case 0 is always taken. -/
theorem TTLExceeded_unfold (now : Nat) (content : List Nat) :
    TTLExceeded now content =
      match readBuf content headerSize with
      | none => .error (.other "cannot read expiration data")
      | some head =>
          let ttl := readLE ((head.drop 16).take 8)
          if ttl = 0 then .ok false
          else
            match unmarshalTime ((head.drop 1).take 15) with
            | none => .error (.other "error unmarshalling binary into time")
            | some ref => .ok (decide (now > ref + ttl)) := rfl

theorem writeTTLHead_slices (now ttl : Nat) :
    ((writeTTLHead now ttl).drop 1).take 15 = marshalTime now ∧
    ((writeTTLHead now ttl).drop 16).take 8 = le64 ttl ∧
    (writeTTLHead now ttl).drop 24 = List.replicate 8 0 ∧
    (writeTTLHead now ttl).getD 0 0 = 0 := by
  refine ⟨?_, ?_, ?_, rfl⟩ <;>
    simp [writeTTLHead, marshalTime, le64, be64, be32, List.replicate]

/-- Reading a header freshly written by `writeTTLHead` (with anything after
it) yields the expected expiry verdict. -/
theorem TTLExceeded_writeTTLHead (now c t : Nat) (rest : List Nat)
    (hc : c / 1000000000 < 2 ^ 64) (ht : t < 2 ^ 64) :
    TTLExceeded now (writeTTLHead c t ++ rest) = .ok (decide (t ≠ 0 ∧ now > c + t)) := by
  have hlen : (writeTTLHead c t).length = 32 := writeTTLHead_length c t
  have hne : ¬(writeTTLHead c t ++ rest).isEmpty := by
    simp [writeTTLHead]
  have htake : (writeTTLHead c t ++ rest).take headerSize = writeTTLHead c t := by
    rw [headerSize, ← hlen, List.take_left]
  have hpad : headerSize - (writeTTLHead c t ++ rest).length = 0 := by
    simp [headerSize, List.length_append, hlen]
  rw [TTLExceeded_unfold]
  simp only [readBuf, hne, if_neg, not_false_iff, hpad, List.replicate_zero,
    List.append_nil, htake]
  norm_num
  have hslices := writeTTLHead_slices c t
  rw [← List.drop_one, hslices.1, hslices.2.1, readLE_le64 t ht,
    unmarshalTime_marshalTime c hc]
  by_cases h0 : t = 0
  · simp [h0]
  · simp [h0]

/-! ## Association-list stores

Each backend medium is modelled as an association list from identifiers to
records; `sfind` is point lookup, `supdate` an upsert, `serase` a delete. -/

def sfind {V : Type} (id : String) : List (String × V) → Option V
  | [] => none
  | (k, v) :: t => if k = id then some v else sfind id t

def supdate {V : Type} (id : String) (v : V) : List (String × V) → List (String × V)
  | [] => [(id, v)]
  | (k, w) :: t => if k = id then (k, v) :: t else (k, w) :: supdate id v t

def serase {V : Type} (id : String) : List (String × V) → List (String × V)
  | [] => []
  | (k, w) :: t => if k = id then t else (k, w) :: serase id t

theorem sfind_supdate {V : Type} (id : String) (v : V) (st : List (String × V)) :
    sfind id (supdate id v st) = some v := by
  induction st with
  | nil => simp [sfind, supdate]
  | cons h t ih =>
      obtain ⟨k, w⟩ := h
      by_cases hk : k = id
      · simp [sfind, supdate, hk]
      · simp [sfind, supdate, hk, ih]

/-! ## Redis backend (`backend/redis.go`, `basicRedis`)

Modelled from the spec for the medium: the remote redis server stores a value
with an optional absolute expiry; `SETNX key value ttl` atomically sets the
key only when no live entry exists, and `GET` answers `redis.Nil` for an
absent or expired key (the server sweeps expired keys transparently). -/

structure RedisEntry where
  data : List Nat
  expires : Option Nat
deriving DecidableEq, Repr

def RedisStore := List (String × RedisEntry)

/-- An entry is visible to redis commands while not expired. -/
def redisLive (now : Nat) (e : RedisEntry) : Prop :=
  match e.expires with
  | none => True
  | some t => now < t

instance (now : Nat) (e : RedisEntry) : Decidable (redisLive now e) := by
  unfold redisLive
  exact match e.expires with
  | none => inferInstanceAs (Decidable True)
  | some _ => inferInstanceAs (Decidable (_ < _))

/-- Modelled from the spec: the redis `SetNX` primitive with TTL (0 meaning
no expiration).  Answers whether the set took place, with the new server
state. -/
def redisSetNX (now : Nat) (st : RedisStore) (id : String) (data : List Nat)
    (ttl : Nat) : Bool × RedisStore :=
  let entry : RedisEntry := ⟨data, if ttl = 0 then none else some (now + ttl)⟩
  match sfind id st with
  | some e => if redisLive now e then (false, st) else (true, supdate id entry st)
  | none => (true, supdate id entry st)

/-- `basicRedis.SaveTTL`: a negative `SetNX` result is surfaced as
`ErrConflict`. -/
def redisSaveTTL (now : Nat) (st : RedisStore) (id : String) (data : List Nat)
    (ttl : Nat) : Except Err RedisStore :=
  match redisSetNX now st id data ttl with
  | (true, st2) => .ok st2
  | (false, _) => .error .conflict

/-- `basicRedis.Retrieve`: `redis.Nil` maps to `ErrNotFound`. -/
def redisRetrieve (now : Nat) (st : RedisStore) (id : String) :
    Except Err (List Nat) :=
  match sfind id st with
  | some e => if redisLive now e then .ok e.data else .error .notFound
  | none => .error .notFound

/-! ## SQLite backend (`backend/sqlite.go`)

A row (`SQLiteData`) holds id, payload, `Created` and `Expires`; Go zero
times are modelled as 0 (`time.Now` is never 0). -/

structure SQLiteRow where
  data : List Nat
  created : Nat
  expires : Nat
deriving DecidableEq, Repr

def SQLStore := List (String × SQLiteRow)

/-- `SQLiteBackend.SaveTTL`: inside the transaction, `First` loads the row
(zero-valued when absent); the conflict guard is literally
`!d.Created.IsZero() || (!d.Expires.IsZero() && now.Before(d.Expires))`;
otherwise the row is upserted with fresh payload and timestamps
(`Expires` set only when ttl > 0). -/
def sqliteSaveTTL (now : Nat) (st : SQLStore) (id : String) (data : List Nat)
    (ttl : Nat) : Except Err SQLStore :=
  let d : SQLiteRow := (sfind id st).getD ⟨[], 0, 0⟩
  if d.created ≠ 0 ∨ (d.expires ≠ 0 ∧ now < d.expires) then .error .conflict
  else .ok (supdate id ⟨data, now, if ttl > 0 then now + ttl else 0⟩ st)

/-- `SQLiteBackend.Retrieve`: absent row or `Expires` set and in the past
map to `ErrNotFound`. -/
def sqliteRetrieve (now : Nat) (st : SQLStore) (id : String) :
    Except Err (List Nat) :=
  match sfind id st with
  | none => .error .notFound
  | some d =>
      if d.expires ≠ 0 ∧ now > d.expires then .error .notFound else .ok d.data

/-- `SQLiteBackend.Delete`: an unconditional row delete, no error when the
row is absent. -/
def sqliteDelete (st : SQLStore) (id : String) : Except Err SQLStore :=
  .ok (serase id st)

/-! ## Filesystem fast backend (`fast/file.go`, streaming revision)

One file per identifier in the managed directory; the file content is the
32-byte TTL header followed by the payload.  The OS filesystem is modelled as
an association list from identifier to file content. -/

def FileSys := List (String × List Nat)

/-- `FileFastBackend.SaveTTL`: stat the path; when a file exists, open it and
check `app.TTLExceeded`; a live file is a conflict; otherwise open with
`O_WRONLY, O_CREATE, O_TRUNC`, write the header via `app.WriteTTL` and copy
the payload (the context is taken as not cancelled, so `io.CopyBuffer`
through `app.NewCtxReader` copies everything).  Returns bytes copied. -/
def fileSaveTTL (now : Nat) (fs : FileSys) (id : String) (payload : List Nat)
    (ttl : Nat) : Except Err (FileSys × Nat) :=
  let write : Except Err (FileSys × Nat) :=
    .ok (supdate id (writeTTLHead now ttl ++ payload) fs, payload.length)
  match sfind id fs with
  | none => write
  | some content =>
      match TTLExceeded now content with
      | .error e => .error e
      | .ok false => .error .conflict
      | .ok true => write

/-- `FileFastBackend.Retrieve`: a missing file is `ErrNotFound`; otherwise
check the TTL header: on error propagate, on expiry remove the file
(compaction on access) and answer `ErrExpired`, else hand back the reader
positioned after the header.  The filesystem after the call is returned
alongside the result. -/
def fileRetrieve (now : Nat) (fs : FileSys) (id : String) :
    Except Err (List Nat) × FileSys :=
  match sfind id fs with
  | none => (.error .notFound, fs)
  | some content =>
      match TTLExceeded now content with
      | .error e => (.error e, fs)
      | .ok true => (.error .expired, serase id fs)
      | .ok false => (.ok (content.drop headerSize), fs)

/-- `FileFastBackend.Delete`: literally `os.Remove(p)`, whose error on a
missing path is propagated unchanged. -/
def fileDelete (fs : FileSys) (id : String) : Except Err FileSys :=
  match sfind id fs with
  | none => .error (.other "remove: no such file or directory")
  | some _ => .ok (serase id fs)

/-! ## S3 fast backend (`fast/s3.go`)

One object per identifier; creation time and TTL live in object user
metadata (`B-Created-Date` as an RFC3339 string, whole seconds, and
`B-Time-To-Live` as a Go duration string).  The bucket is modelled as an
association list from identifier to object; metadata strings round-trip
exactly for values this code writes, so they are carried as numbers, with
the RFC3339 truncation to whole seconds applied on write. -/

structure S3Object where
  data : List Nat
  created : Nat
  ttl : Nat
deriving DecidableEq, Repr

def S3Store := List (String × S3Object)

/-- `S3FastBackend.SaveTTL`: stat the object; when present, parse its
metadata and fail with `ErrConflict` if `exp == 0 || now.Before(when+exp)`;
otherwise upload the stream as a fresh object with new metadata. -/
def s3SaveTTL (now : Nat) (st : S3Store) (id : String) (payload : List Nat)
    (ttl : Nat) : Except Err (S3Store × Nat) :=
  let put : Except Err (S3Store × Nat) :=
    .ok (supdate id ⟨payload, now - now % 1000000000, ttl⟩ st, payload.length)
  match sfind id st with
  | none => put
  | some obj =>
      if obj.ttl = 0 ∨ now < obj.created + obj.ttl then .error .conflict
      else put

/-- `S3FastBackend.Retrieve`: stat the object (`ErrNotFound` when absent);
when `exp != 0 && now.After(when+exp)` answer `ErrExpired` — the object is
not deleted; otherwise open a streaming reader on the object body. -/
def s3Retrieve (now : Nat) (st : S3Store) (id : String) :
    Except Err (List Nat) × S3Store :=
  match sfind id st with
  | none => (.error .notFound, st)
  | some obj =>
      if obj.ttl ≠ 0 ∧ now > obj.created + obj.ttl then (.error .expired, st)
      else (.ok obj.data, st)

/-- `S3FastBackend.Delete`: `RemoveObject`, which succeeds also for an
absent key. -/
def s3Delete (st : S3Store) (id : String) : Except Err S3Store :=
  .ok (serase id st)

/-! ## AES-GCM encryption decorator (`encryption/aes_gcm_backend.go`)

The AES-GCM primitive itself is Go stdlib `crypto/aes` with
`cipher.NewGCM`, outside this repository.  Modelled from the spec: an
authenticated cipher with a 12-byte nonce and a 16-byte authentication tag,
whose sealing masks the plaintext with a key-and-nonce-derived stream and
appends an authentication tag over nonce and ciphertext computed as a
polynomial hash over a prime field (the structure of GHASH); verification
recomputes and compares the tag, so any tampering fails closed.  The
decorator code around it (`encrypt`, `decrypt`, `SaveTTL`, `Retrieve`,
`NewAESGCMBackend`) is translated from the source. -/

def GP : Nat := 65521

instance factGPPrime : Fact (Nat.Prime GP) := ⟨by norm_num [GP]⟩

abbrev GF := ZMod GP

/-- Key-derived nonzero evaluation point of the polynomial MAC. -/
def hpoint (key : List Nat) : GF := ((key.sum % (GP - 1)) + 1 : Nat)

theorem hpoint_ne_zero (key : List Nat) : hpoint key ≠ 0 := by
  intro h
  have hlt : key.sum % (GP - 1) + 1 < GP := by
    have := Nat.mod_lt key.sum (show 0 < GP - 1 by norm_num [GP])
    omega
  have hval : (hpoint key).val = key.sum % (GP - 1) + 1 := ZMod.val_cast_of_lt hlt
  rw [h] at hval
  simp [ZMod.val_zero] at hval

/-- Polynomial hash over `GF` with evaluation point `x` (the structure of
GHASH): the Horner evaluation of the message bytes as coefficients. -/
def ghash (x : GF) : List Nat → GF
  | [] => 0
  | b :: t => (b : GF) * x ^ t.length + ghash x t

theorem ghash_append (x : GF) (A B : List Nat) :
    ghash x (A ++ B) = ghash x A * x ^ B.length + ghash x B := by
  induction A with
  | nil => simp [ghash]
  | cons a A ih =>
      simp only [List.cons_append, ghash, List.append_eq, List.length_append, ih, pow_add]
      ring

theorem ghash_middle (x : GF) (A C : List Nat) (b : Nat) :
    ghash x (A ++ b :: C) = (ghash x A * x + (b : GF)) * x ^ C.length + ghash x C := by
  rw [ghash_append]
  simp only [ghash, List.length_cons, pow_succ]
  ring

/-- Two messages equal except for one position with distinct bytes have
distinct polynomial hashes. -/
theorem ghash_set_ne (x : GF) (hx : x ≠ 0) (A C : List Nat) (b v : Nat)
    (hb : b < 256) (hv : v < 256) (hne : v ≠ b) :
    ghash x (A ++ v :: C) ≠ ghash x (A ++ b :: C) := by
  intro h
  rw [ghash_middle, ghash_middle] at h
  have hmul := add_right_cancel h
  have hpow : x ^ C.length ≠ 0 := pow_ne_zero _ hx
  have hcancel := mul_right_cancel₀ hpow hmul
  have hvb : (v : GF) = (b : GF) := add_left_cancel hcancel
  apply hne
  have hGP : GP = 65521 := rfl
  have hvlt : v < GP := by omega
  have hblt : b < GP := by omega
  have := congrArg ZMod.val hvb
  rwa [ZMod.val_cast_of_lt hvlt, ZMod.val_cast_of_lt hblt] at this

/-- Fixed-width 16-byte encoding of a tag value below `2 ^ 16`. -/
def encode16 (v : Nat) : List Nat :=
  List.replicate 14 0 ++ [v / 256 % 256, v % 256]

theorem encode16_length (v : Nat) : (encode16 v).length = 16 := rfl

theorem encode16_inj (v w : Nat) (hv : v < 65536) (hw : w < 65536)
    (h : encode16 v = encode16 w) : v = w := by
  simp only [encode16, List.replicate, List.cons_append, List.nil_append,
    List.cons.injEq, and_true, true_and] at h
  omega

/-- The 16-byte authentication tag over nonce and ciphertext body. -/
def tagOf (key nonce body : List Nat) : List Nat :=
  encode16 (ghash (hpoint key) (nonce ++ body)).val

theorem tagOf_length (key nonce body : List Nat) : (tagOf key nonce body).length = 16 :=
  encode16_length _

theorem tagOf_ne_of_ghash_ne (key : List Nat) (m1 m2 : List Nat)
    (h : ghash (hpoint key) m1 ≠ ghash (hpoint key) m2) :
    encode16 (ghash (hpoint key) m1).val ≠ encode16 (ghash (hpoint key) m2).val := by
  intro heq
  apply h
  apply ZMod.val_injective GP
  exact encode16_inj _ _
    (lt_trans (ZMod.val_lt _) (by norm_num [GP]))
    (lt_trans (ZMod.val_lt _) (by norm_num [GP])) heq

/-- Key-and-nonce-derived keystream byte of the masking stream. -/
def gcmPad (key nonce : List Nat) : Nat :=
  (key.sum * 131 + nonce.sum * 31 + 7) % 256

/-- Masking of the plaintext with the keystream (an involution). -/
def gcmMask (key nonce pt : List Nat) : List Nat :=
  pt.map (fun b => b ^^^ gcmPad key nonce)

theorem gcmMask_length (key nonce pt : List Nat) :
    (gcmMask key nonce pt).length = pt.length := List.length_map pt _

theorem gcmMask_involutive (key nonce pt : List Nat) :
    gcmMask key nonce (gcmMask key nonce pt) = pt := by
  simp only [gcmMask, List.map_map]
  have h : ((fun b : Nat => b ^^^ gcmPad key nonce) ∘ fun b : Nat => b ^^^ gcmPad key nonce)
      = id := by
    funext b
    exact Nat.xor_cancel_right _ b
  rw [h, List.map_id]

theorem gcmMask_lt (key nonce pt : List Nat) (hpb : ∀ b ∈ pt, b < 256) :
    ∀ b ∈ gcmMask key nonce pt, b < 256 := by
  intro b hb
  simp only [gcmMask, List.mem_map] at hb
  obtain ⟨a, ha, rfl⟩ := hb
  have h1 : a < 2 ^ 8 := by simpa using hpb a ha
  have h2 : gcmPad key nonce < 2 ^ 8 := by
    simp only [gcmPad]
    omega
  simpa using Nat.xor_lt_two_pow h1 h2

def gcmNonceSize : Nat := 12
def gcmOverhead : Nat := 16

/-- Modelled from the spec: `Seal` returns ciphertext body followed by the
authentication tag; the source prepends the nonce by passing it as the
destination buffer, so the stored blob is nonce, body, tag. -/
def gcmSeal (key nonce pt : List Nat) : List Nat :=
  nonce ++ (gcmMask key nonce pt ++ tagOf key nonce (gcmMask key nonce pt))

/-- Modelled from the spec: `Open` splits off the trailing 16-byte tag,
recomputes it over nonce and body, and fails on any mismatch. -/
def gcmOpen (key nonce ct : List Nat) : Option (List Nat) :=
  if ct.length < gcmOverhead then none
  else
    if ct.drop (ct.length - 16) = tagOf key nonce (ct.take (ct.length - 16)) then
      some (gcmMask key nonce (ct.take (ct.length - 16)))
    else none

/-- `AESGCM.encrypt` from the source: a fresh random 12-byte nonce (passed
here as an argument) followed by `Seal`. -/
def aesEncrypt (key nonce data : List Nat) : List Nat := gcmSeal key nonce data

/-- `AESGCM.decrypt` from the source: reject inputs shorter than
`NonceSize() + Overhead()`, else split off the leading nonce and `Open`. -/
def aesDecrypt (key data : List Nat) : Except String (List Nat) :=
  if data.length < gcmNonceSize + gcmOverhead then .error "ciphertext too short"
  else
    match gcmOpen key (data.take gcmNonceSize) (data.drop gcmNonceSize) with
    | some pt => .ok pt
    | none => .error "decrypting"

/-- The key length gate of `NewAESGCMBackend`. -/
def validKeyLength (key : List Nat) : Prop :=
  key.length = 16 ∨ key.length = 24 ∨ key.length = 32

instance (key : List Nat) : Decidable (validKeyLength key) := by
  unfold validKeyLength
  infer_instance

theorem gcmOpen_append (key nonce B T : List Nat) (hT : T.length = 16) :
    gcmOpen key nonce (B ++ T) =
      if T = tagOf key nonce B then some (gcmMask key nonce B) else none := by
  have hlen : (B ++ T).length = B.length + 16 := by simp [hT]
  have hnot : ¬(B ++ T).length < gcmOverhead := by
    simp only [hlen, gcmOverhead]
    omega
  have hsub : (B ++ T).length - 16 = B.length := by omega
  have htake : (B ++ T).take ((B ++ T).length - 16) = B := by
    rw [hsub]
    exact List.take_left B T
  have hdrop : (B ++ T).drop ((B ++ T).length - 16) = T := by
    rw [hsub]
    exact List.drop_left B T
  simp only [gcmOpen, hnot, if_neg, not_false_iff, htake, hdrop]

theorem aesDecrypt_append (key nonce B T : List Nat) (hn : nonce.length = 12)
    (hT : T.length = 16) :
    aesDecrypt key (nonce ++ (B ++ T)) =
      if T = tagOf key nonce B then .ok (gcmMask key nonce B)
      else .error "decrypting" := by
  have hlen : (nonce ++ (B ++ T)).length = 12 + (B.length + 16) := by simp [hn, hT]
  have hnot : ¬(nonce ++ (B ++ T)).length < gcmNonceSize + gcmOverhead := by
    simp only [hlen, gcmNonceSize, gcmOverhead]
    omega
  have htake : (nonce ++ (B ++ T)).take gcmNonceSize = nonce := List.take_left' hn
  have hdrop : (nonce ++ (B ++ T)).drop gcmNonceSize = B ++ T := List.drop_left' hn
  simp only [aesDecrypt, hnot, if_neg, not_false_iff, htake, hdrop,
    gcmOpen_append key nonce B T hT]
  by_cases h : T = tagOf key nonce B
  · simp [h]
  · simp [h]

/-- Round trip through the modelled cipher. -/
theorem aesDecrypt_aesEncrypt (key nonce pt : List Nat) (hn : nonce.length = 12) :
    aesDecrypt key (aesEncrypt key nonce pt) = .ok pt := by
  rw [aesEncrypt, gcmSeal, aesDecrypt_append key nonce _ _ hn (tagOf_length _ _ _),
    if_pos rfl, gcmMask_involutive]

theorem list_decomp {α : Type} (l : List α) (i : Nat) (h : i < l.length) :
    l = l.take i ++ l[i] :: l.drop (i + 1) := by
  induction l generalizing i with
  | nil => simp at h
  | cons a t ih =>
      cases i with
      | zero => simp
      | succ j =>
          simp only [List.take_succ_cons, List.drop_succ_cons, List.getElem_cons_succ,
            List.cons_append, List.cons.injEq, true_and]
          exact ih j (by simpa using h)

/-- Replacing one byte of a message with a different byte changes its
polynomial hash. -/
theorem ghash_msg_set_ne (x : GF) (hx : x ≠ 0) (M : List Nat) (i v : Nat)
    (hi : i < M.length) (hv : v < 256) (hMb : ∀ b ∈ M, b < 256)
    (hne : v ≠ M.getD i 0) :
    ghash x (M.set i v) ≠ ghash x M := by
  have hgd : M.getD i 0 = M[i] := by
    rw [List.getD_eq_getElem?_getD, List.getElem?_eq_getElem hi, Option.getD_some]
  rw [hgd] at hne
  have hdecomp := list_decomp M i hi
  have hset := List.set_eq_take_cons_drop v hi
  rw [hset]
  conv_rhs => rw [hdecomp]
  exact ghash_set_ne x hx _ _ M[i] v (hMb _ (List.getElem_mem hi)) hv hne

/-- Replacing one byte of nonce or ciphertext body with a different byte
changes the recomputed tag. -/
theorem tagOf_msg_set_ne (key nonce B : List Nat) (i v : Nat)
    (hi : i < (nonce ++ B).length) (hv : v < 256)
    (hMb : ∀ b ∈ nonce ++ B, b < 256) (hne : v ≠ (nonce ++ B).getD i 0) :
    encode16 (ghash (hpoint key) ((nonce ++ B).set i v)).val ≠
      encode16 (ghash (hpoint key) (nonce ++ B)).val :=
  tagOf_ne_of_ghash_ne key _ _
    (ghash_msg_set_ne (hpoint key) (hpoint_ne_zero key) _ i v hi hv hMb hne)

/-- A changed byte makes the list differ. -/
theorem list_set_ne {α : Type} [DecidableEq α] (l : List α) (i : Nat) (v : α)
    (hi : i < l.length) (hne : v ≠ l[i]) : l.set i v ≠ l := by
  intro h
  apply hne
  have := congrArg (fun t => t[i]?) h
  simp only [List.getElem?_set_self, hi, if_pos, List.getElem?_eq_getElem hi] at this
  exact Option.some_injective _ this

/-- Tamper detection of the modelled AES-GCM decorator path: flipping any
single byte of the sealed blob (nonce, ciphertext body, or trailing tag)
makes `decrypt` fail with the decryption error. -/
theorem aesDecrypt_tampered (key nonce pt : List Nat) (hn : nonce.length = 12)
    (hnb : ∀ b ∈ nonce, b < 256) (hpb : ∀ b ∈ pt, b < 256)
    (i v : Nat) (hi : i < (aesEncrypt key nonce pt).length) (hv : v < 256)
    (hne : v ≠ (aesEncrypt key nonce pt).getD i 0) :
    aesDecrypt key ((aesEncrypt key nonce pt).set i v) = .error "decrypting" := by
  have hBlen : (gcmMask key nonce pt).length = pt.length := gcmMask_length key nonce pt
  have hTlen : (tagOf key nonce (gcmMask key nonce pt)).length = 16 :=
    tagOf_length key nonce (gcmMask key nonce pt)
  have hblob : aesEncrypt key nonce pt
      = nonce ++ (gcmMask key nonce pt ++ tagOf key nonce (gcmMask key nonce pt)) := rfl
  set B := gcmMask key nonce pt with hBdef
  set T := tagOf key nonce B with hTdef
  have hBb : ∀ b ∈ B, b < 256 := gcmMask_lt key nonce pt hpb
  rw [hblob] at hi hne ⊢
  have hlen : (nonce ++ (B ++ T)).length = 12 + (B.length + 16) := by
    simp [hn, hTlen]
  by_cases h1 : i < 12
  · -- a byte of the leading nonce
    have hlt : i < nonce.length := by omega
    rw [List.set_append_left _ _ hlt]
    have hgd : (nonce ++ (B ++ T)).getD i 0 = nonce[i] := by
      rw [List.getD_eq_getElem?_getD, List.getElem?_append_left hlt,
        List.getElem?_eq_getElem hlt, Option.getD_some]
    rw [hgd] at hne
    have hsetlen : (nonce.set i v).length = 12 := by rw [List.length_set]; exact hn
    rw [aesDecrypt_append key _ B T hsetlen hTlen, if_neg]
    intro habs
    have hmsg : (nonce.set i v) ++ B = (nonce ++ B).set i v :=
      (List.set_append_left _ _ hlt).symm
    have hgm : (nonce ++ B).getD i 0 = nonce[i] := by
      rw [List.getD_eq_getElem?_getD, List.getElem?_append_left hlt,
        List.getElem?_eq_getElem hlt, Option.getD_some]
    have hMb : ∀ b ∈ nonce ++ B, b < 256 := by
      intro b hb
      rcases List.mem_append.mp hb with h | h
      · exact hnb b h
      · exact hBb b h
    have htag := tagOf_msg_set_ne key nonce B i v
      (by rw [List.length_append]; omega) hv hMb (by rw [hgm]; exact hne)
    rw [← hmsg] at htag
    exact htag (habs.symm.trans hTdef)
  · by_cases h2 : i < 12 + B.length
    · -- a byte of the ciphertext body
      have h12 : nonce.length ≤ i := by omega
      rw [List.set_append_right _ _ h12]
      have hj : i - nonce.length < B.length := by omega
      rw [List.set_append_left _ _ hj]
      have hgd : (nonce ++ (B ++ T)).getD i 0 = B[i - nonce.length] := by
        rw [List.getD_eq_getElem?_getD, List.getElem?_append_right h12,
          List.getElem?_append_left hj, List.getElem?_eq_getElem hj, Option.getD_some]
      rw [hgd] at hne
      have hsetlen : (B.set (i - nonce.length) v).length = B.length := List.length_set B _ _
      rw [aesDecrypt_append key nonce _ T hn hTlen, if_neg]
      intro habs
      have hmsg : nonce ++ B.set (i - nonce.length) v = (nonce ++ B).set i v := by
        rw [List.set_append_right _ _ h12]
      have hgm : (nonce ++ B).getD i 0 = B[i - nonce.length] := by
        rw [List.getD_eq_getElem?_getD, List.getElem?_append_right h12,
          List.getElem?_eq_getElem hj, Option.getD_some]
      have hMb : ∀ b ∈ nonce ++ B, b < 256 := by
        intro b hb
        rcases List.mem_append.mp hb with h | h
        · exact hnb b h
        · exact hBb b h
      have htag := tagOf_msg_set_ne key nonce B i v
        (by rw [List.length_append]; omega) hv hMb (by rw [hgm]; exact hne)
      rw [← hmsg] at htag
      exact htag (habs.symm.trans hTdef)
    · -- a byte of the trailing authentication tag
      have h12 : nonce.length ≤ i := by omega
      rw [List.set_append_right _ _ h12]
      have hjB : B.length ≤ i - nonce.length := by omega
      rw [List.set_append_right _ _ hjB]
      have hj : i - nonce.length - B.length < T.length := by
        rw [hTlen]; omega
      have hgd : (nonce ++ (B ++ T)).getD i 0 = T[i - nonce.length - B.length] := by
        rw [List.getD_eq_getElem?_getD, List.getElem?_append_right h12,
          List.getElem?_append_right hjB, List.getElem?_eq_getElem hj, Option.getD_some]
      rw [hgd] at hne
      have hsetlen : (T.set (i - nonce.length - B.length) v).length = 16 := by
        rw [List.length_set]; exact hTlen
      rw [aesDecrypt_append key nonce B _ hn hsetlen, if_neg]
      intro habs
      exact list_set_ne T _ v hj hne (by rw [habs, hTdef])

/-! ## Encryption decorator composed with the buffered backends

`AESGCM` wraps an `app.Backend` (the buffered contract): `SaveTTL` encrypts
then delegates, `Retrieve` delegates then decrypts, errors of the wrapped
backend propagate. -/

def aesSaveTTLSqlite (now : Nat) (key nonce : List Nat) (st : SQLStore)
    (id : String) (data : List Nat) (ttl : Nat) : Except Err SQLStore :=
  sqliteSaveTTL now st id (aesEncrypt key nonce data) ttl

def aesRetrieveSqlite (now : Nat) (key : List Nat) (st : SQLStore) (id : String) :
    Except Err (List Nat) :=
  match sqliteRetrieve now st id with
  | .error e => .error e
  | .ok blob =>
      match aesDecrypt key blob with
      | .ok pt => .ok pt
      | .error s => .error (.other s)

def aesSaveTTLRedis (now : Nat) (key nonce : List Nat) (st : RedisStore)
    (id : String) (data : List Nat) (ttl : Nat) : Except Err RedisStore :=
  redisSaveTTL now st id (aesEncrypt key nonce data) ttl

def aesRetrieveRedis (now : Nat) (key : List Nat) (st : RedisStore) (id : String) :
    Except Err (List Nat) :=
  match redisRetrieve now st id with
  | .error e => .error e
  | .ok blob =>
      match aesDecrypt key blob with
      | .ok pt => .ok pt
      | .error s => .error (.other s)

/-! ## Round-trip helper lemmas -/

theorem TTLExceeded_writeTTLHead_zero (now c : Nat) (rest : List Nat) :
    TTLExceeded now (writeTTLHead c 0 ++ rest) = .ok false := by
  have hlen : (writeTTLHead c 0).length = 32 := writeTTLHead_length c 0
  have hne : ¬(writeTTLHead c 0 ++ rest).isEmpty := by
    simp [writeTTLHead]
  have htake : (writeTTLHead c 0 ++ rest).take headerSize = writeTTLHead c 0 := by
    rw [headerSize, ← hlen, List.take_left]
  have hpad : headerSize - (writeTTLHead c 0 ++ rest).length = 0 := by
    simp [headerSize, List.length_append, hlen]
  rw [TTLExceeded_unfold]
  simp only [readBuf, hne, if_neg, not_false_iff, hpad, List.replicate_zero,
    List.append_nil, htake]
  norm_num
  intro h0
  exact absurd rfl h0

theorem redis_roundtrip (now : Nat) (st : RedisStore) (id : String) (P : List Nat)
    (st2 : RedisStore) (h : redisSaveTTL now st id P 0 = .ok st2) :
    redisRetrieve now st2 id = .ok P := by
  unfold redisSaveTTL redisSetNX at h
  have hst2 : st2 = supdate id ⟨P, none⟩ st := by
    cases hfind : sfind id st with
    | none =>
        rw [hfind] at h
        simp at h
        exact h.symm
    | some e =>
        rw [hfind] at h
        by_cases hlive : redisLive now e
        · simp [hlive] at h
        · simp [hlive] at h
          exact h.symm
  subst hst2
  unfold redisRetrieve
  rw [sfind_supdate]
  simp [redisLive]

theorem sqlite_roundtrip (now : Nat) (st : SQLStore) (id : String) (P : List Nat)
    (st2 : SQLStore) (h : sqliteSaveTTL now st id P 0 = .ok st2) :
    sqliteRetrieve now st2 id = .ok P := by
  unfold sqliteSaveTTL at h
  by_cases hcond : ((sfind id st).getD ⟨[], 0, 0⟩).created ≠ 0 ∨
      (((sfind id st).getD ⟨[], 0, 0⟩).expires ≠ 0 ∧
        now < ((sfind id st).getD ⟨[], 0, 0⟩).expires)
  · rw [if_pos hcond] at h
    cases h
  · rw [if_neg hcond] at h
    norm_num at h
    have hst2 : st2 = supdate id ⟨P, now, 0⟩ st := h.symm
    subst hst2
    unfold sqliteRetrieve
    rw [sfind_supdate]
    simp

theorem file_roundtrip (now : Nat) (fs : FileSys) (id : String) (P : List Nat)
    (fs2 : FileSys) (n : Nat) (h : fileSaveTTL now fs id P 0 = .ok (fs2, n)) :
    (fileRetrieve now fs2 id).1 = .ok P := by
  unfold fileSaveTTL at h
  have hfs2 : fs2 = supdate id (writeTTLHead now 0 ++ P) fs := by
    split at h
    · simp at h
      exact h.1.symm
    · split at h
      · cases h
      · cases h
      · simp at h
        exact h.1.symm
  subst hfs2
  have hT : TTLExceeded now (writeTTLHead now 0 ++ P) = .ok false :=
    TTLExceeded_writeTTLHead_zero now now P
  have hdrop : (writeTTLHead now 0 ++ P).drop headerSize = P := by
    rw [headerSize]
    exact List.drop_left' (writeTTLHead_length now 0)
  simp only [fileRetrieve, sfind_supdate, hT, hdrop]

theorem s3_roundtrip (now : Nat) (st : S3Store) (id : String) (P : List Nat)
    (st2 : S3Store) (n : Nat) (h : s3SaveTTL now st id P 0 = .ok (st2, n)) :
    (s3Retrieve now st2 id).1 = .ok P := by
  unfold s3SaveTTL at h
  have hst2 : st2 = supdate id ⟨P, now - now % 1000000000, 0⟩ st := by
    split at h
    · simp at h
      exact h.1.symm
    · split at h
      · cases h
      · simp at h
        exact h.1.symm
  subst hst2
  unfold s3Retrieve
  rw [sfind_supdate]
  simp

theorem aes_sqlite_roundtrip (now : Nat) (key nonce : List Nat) (st : SQLStore)
    (id : String) (P : List Nat) (st2 : SQLStore) (hn : nonce.length = 12)
    (h : aesSaveTTLSqlite now key nonce st id P 0 = .ok st2) :
    aesRetrieveSqlite now key st2 id = .ok P := by
  unfold aesSaveTTLSqlite at h
  have hr := sqlite_roundtrip now st id (aesEncrypt key nonce P) st2 h
  simp only [aesRetrieveSqlite, hr, aesDecrypt_aesEncrypt key nonce P hn]

theorem aes_redis_roundtrip (now : Nat) (key nonce : List Nat) (st : RedisStore)
    (id : String) (P : List Nat) (st2 : RedisStore) (hn : nonce.length = 12)
    (h : aesSaveTTLRedis now key nonce st id P 0 = .ok st2) :
    aesRetrieveRedis now key st2 id = .ok P := by
  unfold aesSaveTTLRedis at h
  have hr := redis_roundtrip now st id (aesEncrypt key nonce P) st2 h
  simp only [aesRetrieveRedis, hr, aesDecrypt_aesEncrypt key nonce P hn]

/-! ## Conflict helper lemmas

On the conflict path every backend returns before writing, so the store is
untouched; a retrieve against the same store answers the original payload. -/

theorem redis_conflict (now : Nat) (st : RedisStore) (id : String)
    (e : RedisEntry) (d2 : List Nat) (ttl2 : Nat)
    (hfind : sfind id st = some e) (hlive : redisLive now e) :
    redisSaveTTL now st id d2 ttl2 = .error .conflict ∧
    redisRetrieve now st id = .ok e.data := by
  constructor
  · simp only [redisSaveTTL, redisSetNX, hfind, if_pos hlive]
  · simp only [redisRetrieve, hfind, if_pos hlive]

theorem sqlite_conflict (now : Nat) (st : SQLStore) (id : String)
    (d : SQLiteRow) (d2 : List Nat) (ttl2 : Nat)
    (hfind : sfind id st = some d) (hcreated : d.created ≠ 0)
    (hlive : d.expires = 0 ∨ now ≤ d.expires) :
    sqliteSaveTTL now st id d2 ttl2 = .error .conflict ∧
    sqliteRetrieve now st id = .ok d.data := by
  constructor
  · simp only [sqliteSaveTTL, hfind, Option.getD_some]
    exact if_pos (Or.inl hcreated)
  · have hnot : ¬(d.expires ≠ 0 ∧ now > d.expires) := by
      rcases hlive with h | h
      · intro hc
        exact hc.1 h
      · intro hc
        omega
    simp only [sqliteRetrieve, hfind, if_neg hnot]

theorem file_conflict (now c t : Nat) (fs : FileSys) (id : String)
    (P P2 : List Nat) (ttl2 : Nat)
    (hfind : sfind id fs = some (writeTTLHead c t ++ P))
    (hc : c / 1000000000 < 2 ^ 64) (ht : t < 2 ^ 64)
    (hlive : t = 0 ∨ now ≤ c + t) :
    fileSaveTTL now fs id P2 ttl2 = .error .conflict ∧
    (fileRetrieve now fs id).1 = .ok P := by
  have hT : TTLExceeded now (writeTTLHead c t ++ P) = .ok false := by
    rw [TTLExceeded_writeTTLHead now c t P hc ht]
    have : ¬(t ≠ 0 ∧ now > c + t) := by
      rcases hlive with h | h
      · intro hcon
        exact hcon.1 h
      · intro hcon
        omega
    simp [this]
  have hdrop : (writeTTLHead c t ++ P).drop headerSize = P := by
    rw [headerSize]
    exact List.drop_left' (writeTTLHead_length c t)
  constructor
  · simp only [fileSaveTTL, hfind, hT]
  · simp only [fileRetrieve, hfind, hT, hdrop]

theorem s3_conflict (now : Nat) (st : S3Store) (id : String)
    (obj : S3Object) (P2 : List Nat) (ttl2 : Nat)
    (hfind : sfind id st = some obj)
    (hlive : obj.ttl = 0 ∨ now < obj.created + obj.ttl) :
    s3SaveTTL now st id P2 ttl2 = .error .conflict ∧
    (s3Retrieve now st id).1 = .ok obj.data := by
  constructor
  · simp only [s3SaveTTL, hfind]
    rw [if_pos hlive]
  · simp only [s3Retrieve, hfind]
    have hnot : ¬(obj.ttl ≠ 0 ∧ now > obj.created + obj.ttl) := by
      rcases hlive with h | h
      · intro hcon
        exact hcon.1 h
      · intro hcon
        omega
    rw [if_neg hnot]

/-! ## Expired-retrieve helper lemmas -/

theorem file_retrieve_expired (now c t : Nat) (fs : FileSys) (id : String)
    (P : List Nat) (hfind : sfind id fs = some (writeTTLHead c t ++ P))
    (hc : c / 1000000000 < 2 ^ 64) (ht : t < 2 ^ 64)
    (ht0 : t ≠ 0) (hexp : now > c + t) :
    fileRetrieve now fs id = (.error .expired, serase id fs) := by
  have hT : TTLExceeded now (writeTTLHead c t ++ P) = .ok true := by
    rw [TTLExceeded_writeTTLHead now c t P hc ht]
    simp [ht0, hexp]
  simp only [fileRetrieve, hfind, hT]

theorem s3_retrieve_expired (now : Nat) (st : S3Store) (id : String)
    (obj : S3Object) (hfind : sfind id st = some obj)
    (ht0 : obj.ttl ≠ 0) (hexp : now > obj.created + obj.ttl) :
    s3Retrieve now st id = (.error .expired, st) := by
  simp only [s3Retrieve, hfind]
  rw [if_pos ⟨ht0, hexp⟩]

/-! ## Claim theorems -/

/-- C1: Round-trip — for every backend (networked KV, relational, filesystem,
object storage), and for the encryption decorator over the buffered backends
it wraps, a successful `Save(I, P)` (equivalently `SaveTTL` with ttl = 0)
followed immediately by `Retrieve(I)` yields exactly the bytes of `P`,
byte for byte, including the empty payload. -/
theorem C1_roundtrip :
    (∀ (now : Nat) (st : RedisStore) (id : String) (P : List Nat) (st2 : RedisStore),
      redisSaveTTL now st id P 0 = .ok st2 → redisRetrieve now st2 id = .ok P) ∧
    (∀ (now : Nat) (st : SQLStore) (id : String) (P : List Nat) (st2 : SQLStore),
      sqliteSaveTTL now st id P 0 = .ok st2 → sqliteRetrieve now st2 id = .ok P) ∧
    (∀ (now : Nat) (fs : FileSys) (id : String) (P : List Nat) (fs2 : FileSys) (n : Nat),
      fileSaveTTL now fs id P 0 = .ok (fs2, n) → (fileRetrieve now fs2 id).1 = .ok P) ∧
    (∀ (now : Nat) (st : S3Store) (id : String) (P : List Nat) (st2 : S3Store) (n : Nat),
      s3SaveTTL now st id P 0 = .ok (st2, n) → (s3Retrieve now st2 id).1 = .ok P) ∧
    (∀ (now : Nat) (key nonce : List Nat) (st : SQLStore) (id : String)
        (P : List Nat) (st2 : SQLStore),
      validKeyLength key → nonce.length = 12 →
      aesSaveTTLSqlite now key nonce st id P 0 = .ok st2 →
      aesRetrieveSqlite now key st2 id = .ok P) ∧
    (∀ (now : Nat) (key nonce : List Nat) (st : RedisStore) (id : String)
        (P : List Nat) (st2 : RedisStore),
      validKeyLength key → nonce.length = 12 →
      aesSaveTTLRedis now key nonce st id P 0 = .ok st2 →
      aesRetrieveRedis now key st2 id = .ok P) := by
  refine ⟨?_, ?_, ?_, ?_, ?_, ?_⟩
  · exact fun now st id P st2 h => redis_roundtrip now st id P st2 h
  · exact fun now st id P st2 h => sqlite_roundtrip now st id P st2 h
  · exact fun now fs id P fs2 n h => file_roundtrip now fs id P fs2 n h
  · exact fun now st id P st2 n h => s3_roundtrip now st id P st2 n h
  · exact fun now key nonce st id P st2 _ hn h =>
      aes_sqlite_roundtrip now key nonce st id P st2 hn h
  · exact fun now key nonce st id P st2 _ hn h =>
      aes_redis_roundtrip now key nonce st id P st2 hn h

/-- Witness for C1 at concrete inputs, empty and nonempty payloads. -/
theorem C1_roundtrip_witness :
    redisRetrieve 5 [("x", ⟨[], none⟩)] "x" = .ok [] ∧
    sqliteRetrieve 5 [("x", ⟨[], 5, 0⟩)] "x" = .ok [] ∧
    (fileRetrieve 5 [("x", writeTTLHead 5 0 ++ [7])] "x").1 = .ok [7] ∧
    (s3Retrieve 5 [("x", ⟨[7], 5 - 5 % 1000000000, 0⟩)] "x").1 = .ok [7] ∧
    aesRetrieveSqlite 5 (List.replicate 16 1)
      [("x", ⟨aesEncrypt (List.replicate 16 1) (List.replicate 12 2) [9], 5, 0⟩)] "x"
      = .ok [9] ∧
    aesRetrieveRedis 5 (List.replicate 16 1)
      [("x", ⟨aesEncrypt (List.replicate 16 1) (List.replicate 12 2) [9], none⟩)] "x"
      = .ok [9] :=
  ⟨C1_roundtrip.1 5 [] "x" [] _ rfl,
   C1_roundtrip.2.1 5 [] "x" [] _ rfl,
   C1_roundtrip.2.2.1 5 [] "x" [7] _ 1 rfl,
   C1_roundtrip.2.2.2.1 5 [] "x" [7] _ 1 rfl,
   C1_roundtrip.2.2.2.2.1 5 (List.replicate 16 1) (List.replicate 12 2) [] "x" [9] _
     (by decide) (by decide) rfl,
   C1_roundtrip.2.2.2.2.2 5 (List.replicate 16 1) (List.replicate 12 2) [] "x" [9] _
     (by decide) (by decide) rfl⟩

/-- C2: Conflict invariant — for every backend, a second `Save`/`SaveTTL` on
an identifier holding a live record (not expired, or ttl = 0) fails with the
Conflict error; the conflict path returns before any write, and a Retrieve
after the failed call still answers the originally stored payload. -/
theorem C2_conflict :
    (∀ (now : Nat) (st : RedisStore) (id : String) (e : RedisEntry)
        (d2 : List Nat) (ttl2 : Nat),
      sfind id st = some e → redisLive now e →
      redisSaveTTL now st id d2 ttl2 = .error .conflict ∧
      redisRetrieve now st id = .ok e.data) ∧
    (∀ (now : Nat) (st : SQLStore) (id : String) (d : SQLiteRow)
        (d2 : List Nat) (ttl2 : Nat),
      sfind id st = some d → d.created ≠ 0 → (d.expires = 0 ∨ now ≤ d.expires) →
      sqliteSaveTTL now st id d2 ttl2 = .error .conflict ∧
      sqliteRetrieve now st id = .ok d.data) ∧
    (∀ (now c t : Nat) (fs : FileSys) (id : String) (P P2 : List Nat) (ttl2 : Nat),
      sfind id fs = some (writeTTLHead c t ++ P) →
      c / 1000000000 < 2 ^ 64 → t < 2 ^ 64 → (t = 0 ∨ now ≤ c + t) →
      fileSaveTTL now fs id P2 ttl2 = .error .conflict ∧
      (fileRetrieve now fs id).1 = .ok P) ∧
    (∀ (now : Nat) (st : S3Store) (id : String) (obj : S3Object)
        (P2 : List Nat) (ttl2 : Nat),
      sfind id st = some obj → (obj.ttl = 0 ∨ now < obj.created + obj.ttl) →
      s3SaveTTL now st id P2 ttl2 = .error .conflict ∧
      (s3Retrieve now st id).1 = .ok obj.data) := by
  refine ⟨?_, ?_, ?_, ?_⟩
  · exact fun now st id e d2 ttl2 hf hl => redis_conflict now st id e d2 ttl2 hf hl
  · exact fun now st id d d2 ttl2 hf hc hl => sqlite_conflict now st id d d2 ttl2 hf hc hl
  · exact fun now c t fs id P P2 ttl2 hf hc ht hl =>
      file_conflict now c t fs id P P2 ttl2 hf hc ht hl
  · exact fun now st id obj P2 ttl2 hf hl => s3_conflict now st id obj P2 ttl2 hf hl

/-- Witness for C2 at concrete live records. -/
theorem C2_conflict_witness :
    (redisSaveTTL 5 [("x", ⟨[7], none⟩)] "x" [8] 0 = .error .conflict ∧
      redisRetrieve 5 [("x", ⟨[7], none⟩)] "x" = .ok [7]) ∧
    (sqliteSaveTTL 5 [("x", ⟨[7], 5, 0⟩)] "x" [8] 0 = .error .conflict ∧
      sqliteRetrieve 5 [("x", ⟨[7], 5, 0⟩)] "x" = .ok [7]) ∧
    (fileSaveTTL 5 [("x", writeTTLHead 1 0 ++ [7])] "x" [8] 0 = .error .conflict ∧
      (fileRetrieve 5 [("x", writeTTLHead 1 0 ++ [7])] "x").1 = .ok [7]) ∧
    (s3SaveTTL 5 [("x", ⟨[7], 1, 0⟩)] "x" [8] 0 = .error .conflict ∧
      (s3Retrieve 5 [("x", ⟨[7], 1, 0⟩)] "x").1 = .ok [7]) :=
  ⟨C2_conflict.1 5 [("x", ⟨[7], none⟩)] "x" ⟨[7], none⟩ [8] 0 rfl trivial,
   C2_conflict.2.1 5 [("x", ⟨[7], 5, 0⟩)] "x" ⟨[7], 5, 0⟩ [8] 0 rfl (by decide) (Or.inl rfl),
   C2_conflict.2.2.1 5 1 0 [("x", writeTTLHead 1 0 ++ [7])] "x" [7] [8] 0 rfl
     (by decide) (by decide) (Or.inl rfl),
   C2_conflict.2.2.2 5 [("x", ⟨[7], 1, 0⟩)] "x" ⟨[7], 1, 0⟩ [8] 0 rfl (Or.inl rfl)⟩

/-- C3: the claim says expiration clears the conflict on every backend, and
that the relational conflict check fires only when `created_at` is set AND
`expires_at` is unset or in the future.  The source of `SQLiteBackend.SaveTTL`
joins the two conditions with OR (`!d.Created.IsZero() || ...`), so a row
whose `Expires` is long past (created at 1s with expiry at 2s, saved again at
10s) still answers Conflict, and the `OnConflict` upsert clause below the
guard is unreachable.  The object-storage backend at the analogous input
accepts the overwrite, as the claim expects. -/
theorem C3_sqlite_expired_save_still_conflicts :
    sqliteSaveTTL 10000000000 [("x", ⟨[104], 1000000000, 2000000000⟩)] "x" [9] 0
      = .error .conflict ∧
    s3SaveTTL 10000000000 [("x", ⟨[104], 1000000000, 1000000000⟩)] "x" [9] 0
      = .ok ([("x", ⟨[9], 10000000000, 0⟩)], 1) := by
  exact ⟨rfl, rfl⟩

/-- C4 counterexample: at a concrete expired object, the object-storage
Retrieve answers the distinct Expired error, not NotFound, and leaves the
object in place (no delete is issued); the filesystem Retrieve also answers
Expired rather than NotFound. -/
theorem C4_counterexample :
    (s3Retrieve 10000000000 [("x", ⟨[7], 1000000000, 1000000000⟩)] "x").1
      = .error .expired ∧
    Err.expired ≠ Err.notFound ∧
    (s3Retrieve 10000000000 [("x", ⟨[7], 1000000000, 1000000000⟩)] "x").2
      = [("x", ⟨[7], 1000000000, 1000000000⟩)] ∧
    (fileRetrieve 3000000000 [("x", writeTTLHead 1000000000 1000000000 ++ [7])] "x").1
      = .error .expired := by
  refine ⟨rfl, by decide, rfl, ?_⟩
  have h := file_retrieve_expired 3000000000 1000000000 1000000000
    [("x", writeTTLHead 1000000000 1000000000 ++ [7])] "x" [7] rfl
    (by norm_num) (by norm_num) (by norm_num) (by norm_num)
  rw [h]

/-- C4 amended: a filesystem Retrieve that observes an elapsed TTL removes
the file and answers the distinct Expired error; an object-storage Retrieve
answers the Expired error and does not delete the object; Expired is a
different error value from NotFound, so storage-layer callers can tell
expired from absent (the HTTP layer coalesces both to 404). -/
theorem C4_amended :
    (∀ (now c t : Nat) (fs : FileSys) (id : String) (P : List Nat),
      sfind id fs = some (writeTTLHead c t ++ P) →
      c / 1000000000 < 2 ^ 64 → t < 2 ^ 64 → t ≠ 0 → now > c + t →
      fileRetrieve now fs id = (.error .expired, serase id fs)) ∧
    (∀ (now : Nat) (st : S3Store) (id : String) (obj : S3Object),
      sfind id st = some obj → obj.ttl ≠ 0 → now > obj.created + obj.ttl →
      s3Retrieve now st id = (.error .expired, st)) ∧
    Err.expired ≠ Err.notFound := by
  refine ⟨?_, ?_, by decide⟩
  · exact fun now c t fs id P hf hc ht ht0 hexp =>
      file_retrieve_expired now c t fs id P hf hc ht ht0 hexp
  · exact fun now st id obj hf ht0 hexp => s3_retrieve_expired now st id obj hf ht0 hexp

/-- Witness for the amended C4 at concrete expired records. -/
theorem C4_amended_witness :
    fileRetrieve 3000000000 [("y", writeTTLHead 1000000000 1000000000 ++ [8])] "y"
      = (.error .expired, []) ∧
    s3Retrieve 7 [("y", ⟨[8], 1, 2⟩)] "y" = (.error .expired, [("y", ⟨[8], 1, 2⟩)]) :=
  ⟨C4_amended.1 3000000000 1000000000 1000000000
      [("y", writeTTLHead 1000000000 1000000000 ++ [8])] "y" [8] rfl
      (by norm_num) (by norm_num) (by norm_num) (by norm_num),
   C4_amended.2.1 7 [("y", ⟨[8], 1, 2⟩)] "y" ⟨[8], 1, 2⟩ rfl (by decide) (by decide)⟩

/-- C5: Encryption tamper-detection — for any valid key length (16, 24 or 32
bytes), any plaintext stored through the decorator, and any single stored
byte replaced by a different byte value (in the leading nonce, the
ciphertext body, or the trailing tag), Retrieve through the decorator
surfaces the decryption error and never returns corrupted plaintext. -/
theorem C5_tamper_detection (key nonce pt : List Nat) (hkey : validKeyLength key)
    (hn : nonce.length = 12) (hnb : ∀ b ∈ nonce, b < 256) (hpb : ∀ b ∈ pt, b < 256)
    (i v : Nat) (hi : i < (aesEncrypt key nonce pt).length) (hv : v < 256)
    (hne : v ≠ (aesEncrypt key nonce pt).getD i 0)
    (now c : Nat) (st : SQLStore) (id : String)
    (hst : sfind id st = some ⟨(aesEncrypt key nonce pt).set i v, c, 0⟩) :
    aesRetrieveSqlite now key st id = .error (.other "decrypting") := by
  have hdec := aesDecrypt_tampered key nonce pt hn hnb hpb i v hi hv hne
  have hret : sqliteRetrieve now st id = .ok ((aesEncrypt key nonce pt).set i v) := by
    simp only [sqliteRetrieve, hst]
    norm_num
  simp only [aesRetrieveSqlite, hret, hdec]

/-- Witness for C5: a concrete tampered blob (first nonce byte changed). -/
theorem C5_tamper_detection_witness :
    aesRetrieveSqlite 5 (List.replicate 16 1)
      [("x", ⟨(aesEncrypt (List.replicate 16 1) (List.replicate 12 2) [9]).set 0 0, 3, 0⟩)]
      "x" = .error (.other "decrypting") :=
  C5_tamper_detection (List.replicate 16 1) (List.replicate 12 2) [9]
    (by decide) (by decide) (by decide) (by decide) 0 0 (by decide) (by decide)
    (by decide) 5 3 _ "x" rfl

/-- C6: the claim says `TTLExceeded` rejects any stored first byte other than
0x00 with a fatal unrecognized-version error.  The source switches on
`head[versionByte]` before `Read` has filled `head`, so the freshly
allocated zero buffer always selects the version-0 branch: for every stored
first byte 1..255 (here over an otherwise zero header) the function answers
a normal verdict instead of reaching the error branch. -/
theorem C6_unknown_version_not_rejected (now b : Nat) (hb0 : b ≠ 0) (hb : b ≤ 255) :
    TTLExceeded now (b :: List.replicate 31 0) = .ok false := by
  rw [TTLExceeded_unfold]
  have h1 : readBuf (b :: List.replicate 31 0) headerSize
      = some (b :: List.replicate 31 0) := by
    simp [readBuf, headerSize]
  rw [h1]
  norm_num [List.drop_replicate, List.take_replicate, readLE]
  intro hcon
  exact absurd (by decide) hcon

/-- Witness for C6 at the concrete version byte 1. -/
theorem C6_unknown_version_not_rejected_witness :
    TTLExceeded 0 (1 :: List.replicate 31 0) = .ok false :=
  C6_unknown_version_not_rejected 0 1 (by decide) (by decide)

/-- C7: TTL expiry predicate — for a well-formed stored header with TTL
field `t` and creation time `c` (a Go duration, below `2 ^ 63`),
`TTLExceeded` answers true exactly when `t` is nonzero and the current time
is strictly after `c + t`; in particular for `t = 0` it always answers
false, however much time has passed. -/
theorem C7_ttl_predicate (now c t : Nat) (rest : List Nat)
    (hc : c / 1000000000 < 2 ^ 64) (ht : t < 2 ^ 63) :
    (TTLExceeded now (writeTTLHead c t ++ rest) = .ok true ↔ (t ≠ 0 ∧ now > c + t)) ∧
    (t = 0 → TTLExceeded now (writeTTLHead c t ++ rest) = .ok false) := by
  have ht64 : t < 2 ^ 64 := by omega
  have h := TTLExceeded_writeTTLHead now c t rest hc ht64
  constructor
  · rw [h]
    constructor
    · intro hok
      have := Except.ok.inj hok
      exact of_decide_eq_true this
    · intro hx
      rw [decide_eq_true hx]
  · intro h0
    subst h0
    exact TTLExceeded_writeTTLHead_zero now c rest

/-- Witness for C7: an expired header answers true, a ttl = 0 header answers
false long after creation. -/
theorem C7_ttl_predicate_witness :
    TTLExceeded 5 (writeTTLHead 1 1 ++ []) = .ok true ∧
    TTLExceeded 99999 (writeTTLHead 1 0 ++ []) = .ok false :=
  ⟨(C7_ttl_predicate 5 1 1 [] (by norm_num) (by norm_num)).1.mpr
      ⟨by decide, by decide⟩,
   (C7_ttl_predicate 99999 1 0 [] (by norm_num) (by norm_num)).2 rfl⟩

/-- C8: TTL header wire layout — the header written by `WriteTTL` is exactly
32 bytes: the version byte 0 at index 0, the 15-byte serialized absolute UTC
creation timestamp at indices 1..15, the TTL as an 8-byte little-endian
integer at indices 16..23, reserved zero bytes for the remainder; and the
filesystem backend places this header in front of the payload bytes. -/
theorem C8_header_layout (now ttl : Nat) :
    (writeTTLHead now ttl).length = 32 ∧
    (writeTTLHead now ttl).getD 0 0 = 0 ∧
    ((writeTTLHead now ttl).drop 1).take 15 = marshalTime now ∧
    (marshalTime now).length = 15 ∧
    ((writeTTLHead now ttl).drop 16).take 8 = le64 ttl ∧
    (le64 ttl).length = 8 ∧
    (writeTTLHead now ttl).drop 24 = List.replicate 8 0 ∧
    (∀ (fs : FileSys) (id : String) (payload : List Nat) (fs2 : FileSys) (n : Nat),
      fileSaveTTL now fs id payload ttl = .ok (fs2, n) →
      sfind id fs2 = some (writeTTLHead now ttl ++ payload)) := by
  have hs := writeTTLHead_slices now ttl
  refine ⟨writeTTLHead_length now ttl, hs.2.2.2, hs.1, marshalTime_length now,
    hs.2.1, le64_length ttl, hs.2.2.1, ?_⟩
  intro fs id payload fs2 n h
  unfold fileSaveTTL at h
  have hfs2 : fs2 = supdate id (writeTTLHead now ttl ++ payload) fs := by
    split at h
    · simp at h
      exact h.1.symm
    · split at h
      · cases h
      · cases h
      · simp at h
        exact h.1.symm
  rw [hfs2, sfind_supdate]

/-- Witness for C8: the header written by a concrete filesystem save sits in
front of the payload. -/
theorem C8_header_layout_witness :
    sfind "x" [("x", writeTTLHead 5 7 ++ [9])]
      = some (writeTTLHead 5 7 ++ [9]) :=
  (C8_header_layout 5 7).2.2.2.2.2.2.2 [] "x" [9] [("x", writeTTLHead 5 7 ++ [9])] 1 rfl

/-- C9: the claim says every backend with Delete tolerates a missing record.
The sqlite and S3 deletes do, but `FileFastBackend.Delete` is a bare
`os.Remove`, which fails with a path error when the file does not exist —
contradicting both the spec and the repository conformance test
("remove should be idempotent", run against this backend). -/
theorem C9_file_delete_missing_errors :
    fileDelete [] "x" = .error (.other "remove: no such file or directory") ∧
    sqliteDelete [] "x" = .ok [] ∧
    s3Delete [] "x" = .ok [] :=
  ⟨rfl, rfl, rfl⟩

/-- C10: malformed ciphertext guard — through the decorator, for a valid
key, decryption answers the dedicated short-ciphertext error exactly for
blobs shorter than nonce size plus tag overhead (12 + 16 = 28 bytes); the
decrypt path is a total function on byte strings. -/
theorem C10_short_ciphertext (key data : List Nat) (hk : validKeyLength key) :
    aesDecrypt key data = .error "ciphertext too short" ↔
      data.length < gcmNonceSize + gcmOverhead := by
  unfold aesDecrypt
  by_cases h : data.length < gcmNonceSize + gcmOverhead
  · simp [h]
  · rw [if_neg h]
    constructor
    · intro hc
      cases hopen : gcmOpen key (data.take gcmNonceSize) (data.drop gcmNonceSize) with
      | some pt =>
          rw [hopen] at hc
          cases hc
      | none =>
          rw [hopen] at hc
          have := Except.error.inj hc
          exact absurd this (by decide)
    · intro hlen
      exact absurd hlen h

/-- Witness for C10: the empty blob and a 27-byte blob are rejected as too
short under a 16-byte key. -/
theorem C10_short_ciphertext_witness :
    aesDecrypt (List.replicate 16 0) [] = .error "ciphertext too short" ∧
    aesDecrypt (List.replicate 16 0) (List.replicate 27 3)
      = .error "ciphertext too short" :=
  ⟨(C10_short_ciphertext (List.replicate 16 0) [] (by decide)).mpr (by decide),
   (C10_short_ciphertext (List.replicate 16 0) (List.replicate 27 3) (by decide)).mpr
     (by decide)⟩
